import Mathlib

/-!
Verification of the text layout and composition engine of `ytmovie.py`
(Code_Crusade).  Python strings are modelled as lists of characters
(`PyStr`), Python's PIL font objects as records of measurement
callbacks that may be absent (`hasattr` is false) or may raise
(modelled by an inner `Option`), and the drawing calls of
`create_text_image` as an emitted list of layout elements.
-/

/-! ## Python string model -/

/-- Python strings are sequences of code points. -/
abbrev PyStr := List Char

/-- Python whitespace characters relevant to `str.strip()` and `\s`
(ASCII range; the repository's text is ASCII-oriented). -/
def isPySpace (c : Char) : Bool :=
  c = ' ' || c = '\t' || c = '\n' || c = '\r' || c = '\x0b' || c = '\x0c'

/-- Python `str.strip()`: remove leading and trailing whitespace. -/
def pyStrip (s : PyStr) : PyStr :=
  ((s.dropWhile isPySpace).reverse.dropWhile isPySpace).reverse

/-- Python `str.upper()` (ASCII model). -/
def pyUpper (s : PyStr) : PyStr := s.map Char.toUpper

/-- Python `s.rfind(' ')`: index of the last space, `none` for Python's `-1`. -/
def rfind_space : PyStr → Option Nat
  | [] => none
  | c :: rest =>
    match rfind_space rest with
    | some i => some (i + 1)
    | none => if c = ' ' then some 0 else none

/-- The run `seg` occurs contiguously inside `w`. -/
def is_sub_run (seg w : PyStr) : Prop := ∃ u v, w = u ++ seg ++ v

/-- Python `bytes.decode("unicode_escape")` as used on the `code` field
(`ytmovie.py` line 498): turns escaped `\n`, `\t`, `\r`, `\\`, quote
escapes into the characters they denote and (like CPython) leaves
unrecognised escape sequences in place.  Numeric `\xHH`/`\uHHHH`
escapes do not occur in the repository's data and are left as-is. -/
def decode_unicode_escape : PyStr → PyStr
  | [] => []
  | '\\' :: 'n' :: rest => '\n' :: decode_unicode_escape rest
  | '\\' :: 't' :: rest => '\t' :: decode_unicode_escape rest
  | '\\' :: 'r' :: rest => '\r' :: decode_unicode_escape rest
  | '\\' :: '\\' :: rest => '\\' :: decode_unicode_escape rest
  | '\\' :: '\'' :: rest => '\'' :: decode_unicode_escape rest
  | '\\' :: '"' :: rest => '"' :: decode_unicode_escape rest
  | c :: rest => c :: decode_unicode_escape rest

/-! ## Text measurement (`get_text_size`, lines 375-402) -/

/-- A PIL font object as seen by `get_text_size`: the `getbbox` and
`getsize` methods may be absent (outer `Option`, Python `hasattr`) and a
present method may raise (inner `Option`, caught by the `except` arm).
`size?` is the optional `font.size` attribute (a positive int on PIL
fonts). -/
structure PyFont where
  getbbox? : Option (PyStr → Option (Int × Int × Int × Int))
  getsize? : Option (PyStr → Option (Int × Int))
  size? : Option Nat

/-- The `except` arm of `get_text_size` (`ytmovie.py` lines 395-402):
`fallback_height` is `font.size` when the attribute exists, else 20, and
the estimated width is `len(text) * (fallback_height // 2)`. -/
def fallback_text_size (font : PyFont) (text : PyStr) : Int × Int :=
  let fallback_height : Int :=
    match font.size? with
    | some n => (n : Int)
    | none => 20
  ((text.length : Int) * (Int.fdiv fallback_height 2), fallback_height)

/-- `get_text_size(font, text)` (`ytmovie.py` lines 375-402).  Prefers
`getbbox`, then `getsize`; if neither exists it returns
`len(text) * (20 // 2), 20`; if the chosen method raises it returns the
`fallback_text_size` heuristic.  Total by construction: every branch of
the source returns a pair, so the embedding needs no error type. -/
def get_text_size (font : PyFont) (text : PyStr) : Int × Int :=
  match font.getbbox? with
  | some getbbox =>
    match getbbox text with
    | some bbox => (bbox.2.2.1 - bbox.1, bbox.2.2.2 - bbox.2.1)
    | none => fallback_text_size font text
  | none =>
    match font.getsize? with
    | some getsize =>
      match getsize text with
      | some sz => (sz.1, sz.2)
      | none => fallback_text_size font text
    | none => ((text.length : Int) * Int.fdiv 20 2, 20)

/-- Measured width of a string under a font. -/
def text_width (font : PyFont) (s : PyStr) : Int := (get_text_size font s).1

/-! ## Word wrapping (`wrap_text`, lines 317-373) -/

/-- The character-level fallback `while` loop of `wrap_text`
(`ytmovie.py` lines 359-367): repeatedly cut `current_line` into
segments of at most `chars_per_line` characters, preferring the last
space strictly inside the window (`break_point > 0`), else a hard cut.
Returns the emitted segments and the final remainder.  The call site
always passes `chars_per_line = max(1, ...) ≥ 1`; the `0` case (on which
the source loop would not terminate) is vacuous. -/
def hard_break (chars_per_line : Nat) (current : PyStr) : List PyStr × PyStr :=
  if _h0 : chars_per_line = 0 then ([], current)
  else if _hlen : chars_per_line < current.length then
    match rfind_space (current.take chars_per_line) with
    | some break_point =>
      if _hb : 0 < break_point then
        let res := hard_break chars_per_line (pyStrip (current.drop break_point))
        (current.take break_point :: res.1, res.2)
      else
        let res := hard_break chars_per_line (current.drop chars_per_line)
        (current.take chars_per_line :: res.1, res.2)
    | none =>
      let res := hard_break chars_per_line (current.drop chars_per_line)
      (current.take chars_per_line :: res.1, res.2)
  else ([], current)
termination_by current.length
decreasing_by
  all_goals first
  | (simp only [List.length_drop]
     omega)
  | (have ha : ((current.drop break_point).dropWhile isPySpace).length
        ≤ (current.drop break_point).length :=
      List.Sublist.length_le (List.dropWhile_sublist isPySpace)
     have hb2 : (((current.drop break_point).dropWhile isPySpace).reverse.dropWhile
          isPySpace).length
        ≤ ((current.drop break_point).dropWhile isPySpace).reverse.length :=
      List.Sublist.length_le (List.dropWhile_sublist isPySpace)
     simp only [pyStrip, List.length_reverse, List.length_drop] at *
     omega)

/-- The word loop of `wrap_text` (`ytmovie.py` lines 330-367): greedy
accumulation into `current_line`, with empty tokens (from runs of
spaces) appending a bare space, and the character fallback for a word
whose own width exceeds `max_width`.  `chars_per_line` translates
`max(1, int(max_width / (word_width / len(word))))` with exact rational
arithmetic (`int(...)` truncates toward zero, hence `Int.tdiv`); the
source computes the quotient in floating point, which agrees at these
magnitudes.  Returns the lines appended by the loop and the final
`current_line`. -/
def wrap_words (font : PyFont) (max_width : Int) :
    List PyStr → PyStr → List PyStr × PyStr
  | [], current_line => ([], current_line)
  | word :: words, current_line =>
    if word = [] then
      wrap_words font max_width words
        (if current_line ≠ [] then current_line ++ [' '] else current_line)
    else
      let test_line := pyStrip (current_line ++ [' '] ++ word)
      let line_width := text_width font test_line
      if line_width ≤ max_width then
        wrap_words font max_width words test_line
      else
        let flushed := if current_line ≠ [] then [current_line] else []
        let word_width := text_width font word
        if max_width < word_width then
          let chars_per_line : Nat :=
            if 0 < word_width then
              max 1 (Int.tdiv (max_width * (word.length : Int)) word_width).toNat
            else 1
          let broken := hard_break chars_per_line word
          let rest := wrap_words font max_width words broken.2
          (flushed ++ broken.1 ++ rest.1, rest.2)
        else
          let rest := wrap_words font max_width words word
          (flushed ++ rest.1, rest.2)

/-- `wrap_text(text, font, max_width)` (`ytmovie.py` lines 317-373).
Splits on newlines into paragraphs, splits each paragraph on single
spaces, runs the greedy word loop, and flushes a non-empty final
`current_line`.  The `if not words` arm is translated as in the source;
it is unreachable because Python's `split` never returns an empty
list. -/
def wrap_text (text : PyStr) (font : PyFont) (max_width : Int) : List PyStr :=
  (text.splitOn '\n').foldl
    (fun lines paragraph =>
      let words := paragraph.splitOn ' '
      if words = [] then lines ++ [[]]
      else
        let res := wrap_words font max_width words []
        lines ++ res.1 ++ (if res.2 ≠ [] then [res.2] else []))
    []

/-! ## Lexical classification of code lines (lines 532-543) -/

/-- Color categories assigned by the per-line highlighting of the code
block; each corresponds to one of the `CODE_COLOR_*` constants. -/
inductive CodeColor where
  | default
  | keyword
  | stringLit
  | comment
deriving DecidableEq

/-- The `CODE_COLOR_*` RGB constants each category is drawn with. -/
def code_color_rgb : CodeColor → Nat × Nat × Nat
  | .default => (100, 200, 255)
  | .keyword => (255, 150, 0)
  | .stringLit => (0, 255, 150)
  | .comment => (150, 150, 150)

/-- The closed keyword set of the `re.match` alternation on line 539. -/
def python_keywords : List PyStr :=
  ["def".toList, "class".toList, "if".toList, "else".toList, "elif".toList,
   "for".toList, "while".toList, "try".toList, "except".toList,
   "finally".toList, "return".toList, "import".toList, "from".toList,
   "with".toList, "yield".toList, "pass".toList, "break".toList,
   "continue".toList, "in".toList, "is".toList, "not".toList, "and".toList,
   "or".toList, "lambda".toList, "async".toList, "await".toList,
   "global".toList, "nonlocal".toList, "assert".toList, "del".toList]

/-- Python regex word character (`\w`, ASCII model), used for the `\b`
boundary after a keyword. -/
def is_word_char (c : Char) : Bool := c.isAlphanum || c = '_'

/-- The keyword test `re.match(r'^\s*(def|class|...)\b', line)`: after
the leading whitespace run, some keyword of the closed set is a prefix
of the rest and is followed by a non-word character or the end of the
line.  (Backtracking cannot place a keyword inside the whitespace run,
since no keyword starts with whitespace.) -/
def keyword_line_match (line : PyStr) : Bool :=
  let rest := line.dropWhile isPySpace
  python_keywords.any fun kw =>
    kw.isPrefixOf rest &&
      (match rest.drop kw.length with
       | [] => true
       | c :: _ => !is_word_char c)

/-- The quote test `re.search(r'(\'|"|f\'|f"|\'\'\'|""")', line)`: every
alternative contains a quote character, so the search succeeds exactly
when the line contains a single or double quote. -/
def has_quote_char (line : PyStr) : Bool :=
  line.any fun c => c = '\'' || c = '"'

/-- The lexical classification of one code line (`ytmovie.py` lines
532-543), with the source's priority: comment > keyword > string >
default. -/
def classify_code_line (line : PyStr) : CodeColor :=
  if (pyStrip line).take 1 = ['#'] then .comment
  else if keyword_line_match line then .keyword
  else if has_quote_char line then .stringLit
  else .default

/-! ## Layout constants (`ytmovie.py` lines 33-61, 464-471, 515-516,
555-557) -/

def VIDEO_WIDTH : Int := 1080
def VIDEO_HEIGHT : Int := 1920
def PADDING_X : Int := 60
def TOP_PROMPT_Y : Int := 60
def BOTTOM_MARGIN : Int := 50
def line_spacing_title : Int := 15
def line_spacing_code : Int := 10
def line_spacing_option : Int := 10
def block_spacing : Int := 40
def option_inter_box_spacing : Int := 25
def code_block_padding_y : Int := 20
def code_block_padding_x : Int := 20
def option_box_internal_padding_y : Int := 15
def option_box_internal_padding_x : Int := 15

/-- `content_width = VIDEO_WIDTH - 2 * PADDING_X` (line 465). -/
def content_width : Int := VIDEO_WIDTH - 2 * PADDING_X

/-- `option_wrap_width = content_width - 2 * option_box_internal_padding_x`
(line 557). -/
def option_wrap_width : Int := content_width - 2 * option_box_internal_padding_x

/-! ## The layout computation of `create_text_image` (lines 405-626) -/

/-- The question record dictionary: each field is accessed through
`question_data.get(key, default)`, so every field may be absent. -/
structure QuestionData where
  question? : Option PyStr
  code? : Option PyStr
  options? : Option (List PyStr)
  correct_answer? : Option PyStr

/-- The four fonts loaded by `create_text_image` (lines 446-457). -/
structure FontSet where
  title_font : PyFont
  code_font : PyFont
  option_font : PyFont
  prompt_font : PyFont

/-- One emitted option box: its index, source text, vertical extent and
wrapped lines (drawn box plus text, lines 587-604). -/
structure OptionBox where
  idx : Nat
  text : PyStr
  y_start : Int
  y_end : Int
  lines : List PyStr

/-- One visual element produced by `create_text_image`, in emission
order (which is top-to-bottom order). -/
inductive LayoutElement where
  | promptText (x y : Int) (text : PyStr)
  | questionLine (x y : Int) (text : PyStr)
  | codeBox (x0 y0 x1 y1 : Int)
  | codeLine (x y : Int) (text : PyStr) (color : CodeColor)
  | optionBox (box : OptionBox)

/-- The question-text loop (lines 487-491): draw each wrapped line at
`PADDING_X` and advance by its measured height plus the title line
spacing. -/
def draw_question_lines (title_font : PyFont) :
    List PyStr → Int → List LayoutElement × Int
  | [], current_y => ([], current_y)
  | line :: rest, current_y =>
    let actual_line_height := (get_text_size title_font line).2
    let res := draw_question_lines title_font rest
      (current_y + actual_line_height + line_spacing_title)
    (LayoutElement.questionLine PADDING_X current_y line :: res.1, res.2)

/-- The code-block content height (lines 502-513): sum of per-line
heights (an empty line measured as a single space) plus the code line
spacing, with the trailing spacing removed; the `else` arm repeats the
source's unreachable branch for an empty line list. -/
def code_content_height (code_font : PyFont) (code_lines : List PyStr) : Int :=
  if code_lines ≠ [] then
    (code_lines.foldl
      (fun acc line =>
        acc + (get_text_size code_font (if line = [] then [' '] else line)).2
          + line_spacing_code) 0) - line_spacing_code
  else (get_text_size code_font [' ']).2

/-- The code-line loop (lines 531-549): classify each raw line, draw it
at `PADDING_X`, and advance by its measured height plus spacing. -/
def draw_code_lines (code_font : PyFont) :
    List PyStr → Int → List LayoutElement × Int
  | [], code_y => ([], code_y)
  | line :: rest, code_y =>
    let color := classify_code_line line
    let line_h := (get_text_size code_font (if line = [] then [' '] else line)).2
    let res := draw_code_lines code_font rest (code_y + line_h + line_spacing_code)
    (LayoutElement.codeLine PADDING_X code_y line color :: res.1, res.2)

/-- Content height of one option box (lines 564-572): sum of wrapped
line heights plus spacing with the trailing spacing removed; an empty
wrap result is measured as a single space. -/
def option_content_height (option_font : PyFont)
    (wrapped_option_lines : List PyStr) : Int :=
  if wrapped_option_lines ≠ [] then
    (wrapped_option_lines.foldl
      (fun acc line =>
        acc + (get_text_size option_font (if line = [] then [' '] else line)).2
          + line_spacing_option) 0) - line_spacing_option
  else (get_text_size option_font [' ']).2

/-- `dynamic_option_box_height` (line 574) for one option text. -/
def option_box_height (option_font : PyFont) (option_text : PyStr) : Int :=
  option_content_height option_font
      (wrap_text option_text option_font option_wrap_width)
    + 2 * option_box_internal_padding_y

/-- The option loop of `create_text_image` (lines 559-607): for each
option, wrap it, compute the dynamic box height, and stop (`break`)
before emitting a box whose bottom would pass
`VIDEO_HEIGHT - BOTTOM_MARGIN`.  Returns the emitted boxes, the final
cursor, and the final values of the loop variables `(i, box_y_end)` —
`none` when the loop body never ran and they stay unbound. -/
def draw_answer_options (option_font : PyFont) :
    List PyStr → Nat → Int → List OptionBox × Int × Option (Nat × Int)
  | [], _, current_y => ([], current_y, none)
  | option_text :: rest, i, current_y =>
    let box_y_start := current_y
    let wrapped_option_lines := wrap_text option_text option_font option_wrap_width
    let dynamic_option_box_height :=
      option_content_height option_font wrapped_option_lines
        + 2 * option_box_internal_padding_y
    let box_y_end := box_y_start + dynamic_option_box_height
    if VIDEO_HEIGHT - BOTTOM_MARGIN < box_y_end then
      ([], current_y, some (i, box_y_end))
    else
      let res := draw_answer_options option_font rest (i + 1)
        (box_y_end + option_inter_box_spacing)
      (⟨i, option_text, box_y_start, box_y_end, wrapped_option_lines⟩ :: res.1,
        res.2.1, some (res.2.2.getD (i, box_y_end)))

/-- The layout computation of `create_text_image` (`ytmovie.py` lines
405-626), as the ordered sequence of elements it draws.  Background and
overlay painting and the final file save carry no layout information and
are omitted; font loading is a parameter (`FontSet`).  The result is
`none` exactly when the source returns `None` through its catch-all
handler: after the option loop, line 611 reads the loop variable `i`,
which raises `NameError` when `options` was empty and the loop never
bound it. -/
def create_text_image (question_data : QuestionData) (fonts : FontSet) :
    Option (List LayoutElement) :=
  -- 0. prompt at the top (lines 473-480)
  let prompt_text := "Tap to pause! Answer in comments!".toList
  let prompt_size := get_text_size fonts.prompt_font prompt_text
  let prompt_x := Int.fdiv (VIDEO_WIDTH - prompt_size.1) 2
  let prompt_el := LayoutElement.promptText prompt_x TOP_PROMPT_Y prompt_text
  let current_y := TOP_PROMPT_Y + prompt_size.2 + block_spacing
  -- 1. question text (lines 482-493)
  let question_text := question_data.question?.getD ("Error: Question missing".toList)
  let question_lines := wrap_text question_text fonts.title_font content_width
  let question_res := draw_question_lines fonts.title_font question_lines current_y
  let current_y := question_res.2 + block_spacing - line_spacing_title
  -- 2. code block (lines 495-551)
  let code_text := question_data.code?.getD ("# Error: Code missing".toList)
  let code_lines := (decode_unicode_escape code_text).splitOn '\n'
  let code_block_total_height :=
    code_content_height fonts.code_font code_lines + 2 * code_block_padding_y
  let code_box_y_start := current_y
  let code_box_y_end := code_box_y_start + code_block_total_height
  let code_box_el := LayoutElement.codeBox (PADDING_X - code_block_padding_x)
    code_box_y_start (VIDEO_WIDTH - PADDING_X + code_block_padding_x) code_box_y_end
  let code_res := draw_code_lines fonts.code_font code_lines
    (code_box_y_start + code_block_padding_y)
  let current_y := code_box_y_end + block_spacing
  -- 3. answer options (lines 553-612)
  let options := question_data.options?.getD
    (List.replicate 4 ("Error: Options missing".toList))
  let opt_res := draw_answer_options fonts.option_font options 0 current_y
  match opt_res.2.2 with
  | none => none
  | some li =>
    -- line 611 reads the loop variables `i` and `box_y_end`; the
    -- resulting cursor adjustment affects nothing that is still drawn.
    let _final_y :=
      if li.1 = options.length - 1 ∧ li.2 ≤ VIDEO_HEIGHT - BOTTOM_MARGIN then
        opt_res.2.1 - option_inter_box_spacing
      else opt_res.2.1
    some (prompt_el :: question_res.1
      ++ (code_box_el :: code_res.1)
      ++ opt_res.1.map LayoutElement.optionBox)

/-! ## The answer-overlay scan of `create_video` (lines 679-695) -/

/-- Separator class `[\s).:\]]` of the answer-matching regex
(`ytmovie.py` line 688). -/
def is_answer_sep (c : Char) : Bool :=
  isPySpace c || c = ')' || c = '.' || c = ':' || c = ']'

/-- The test `re.match(rf"^\s*{re.escape(letter)}[\s).:\]]", opt_str,
re.IGNORECASE)`: `opt_str` is already stripped, so the leading
whitespace pattern is vacuous; the letter is compared case-insensitively
and must be followed by a separator character. -/
def answer_sep_match (letter s : PyStr) : Bool :=
  pyUpper (s.take letter.length) = pyUpper letter &&
    (match s.drop letter.length with
     | c :: _ => is_answer_sep c
     | [] => false)

/-- The option scan of `create_video` (`ytmovie.py` lines 684-693):
return the first stripped option matching letter-plus-separator
(`break`), but keep overwriting the accumulator with any stripped option
whose uppercase form starts with the letter (the `elif`, which does not
`break`). -/
def find_correct_option_loop (letter : PyStr) :
    List PyStr → PyStr → PyStr
  | [], acc => acc
  | opt :: rest, acc =>
    let opt_str := pyStrip opt
    if answer_sep_match letter opt_str then opt_str
    else if letter.isPrefixOf (pyUpper opt_str) then
      find_correct_option_loop letter rest opt_str
    else find_correct_option_loop letter rest acc

/-- The answer-overlay text (`ytmovie.py` lines 679-695): scan the
options, starting from the placeholder `f"({letter})"`. -/
def find_correct_option_text (letter : PyStr) (options : List PyStr) : PyStr :=
  find_correct_option_loop letter options ('(' :: letter ++ [')'])

/-- Reference description of the scan result, stated non-recursively for
comparison with `find_correct_option_text` (claim C6): the first option
whose stripped text matches letter-plus-separator; failing that — and
this clause is the amendment forced by the code's `elif` — the last
option whose stripped uppercase form starts with the letter; failing
both, the placeholder `"(<letter>)"`. -/
def answer_overlay_spec (letter : PyStr) (options : List PyStr) : PyStr :=
  match options.find? (fun opt => answer_sep_match letter (pyStrip opt)) with
  | some opt => pyStrip opt
  | none =>
    match (options.filter
        (fun opt => letter.isPrefixOf (pyUpper (pyStrip opt)))).getLast? with
    | some opt => pyStrip opt
    | none => '(' :: letter ++ [')']

/-! ## Concrete fonts and data used by witnesses and counterexamples -/

/-- A font whose `getbbox` reports every character (spaces included) as
10 pixels wide and every string as 20 pixels tall. -/
def ten_px_font : PyFont :=
  { getbbox? := some (fun s => some (0, 0, 10 * (s.length : Int), 20))
    getsize? := none
    size? := none }

/-- Like `ten_px_font` but 600 pixels tall, used to overflow the option
area of the canvas. -/
def tall_font : PyFont :=
  { getbbox? := some (fun s => some (0, 0, 10 * (s.length : Int), 600))
    getsize? := none
    size? := none }

/-- A font whose `getbbox` method raises on every input and whose `size`
attribute is 30. -/
def raising_font : PyFont :=
  { getbbox? := some (fun _ => none)
    getsize? := none
    size? := some 30 }

/-- A font set using `ten_px_font` for every role. -/
def sample_fonts : FontSet := ⟨ten_px_font, ten_px_font, ten_px_font, ten_px_font⟩

/-- The record returned by `get_sample_question()` (`ytmovie.py` lines
293-307). -/
def sample_question : QuestionData :=
  { question? := some ("What data structure results from this Python code?".toList)
    code? := some ("data = \x7bi: i*i for i in range(5)\x7d\nprint(type(data))".toList)
    options? := some ["A) List".toList, "B) Tuple".toList,
      "C) Set of key-value pairs representing squares (Dictionary)".toList,
      "D) Array".toList]
    correct_answer? := some ("C".toList) }

/-- Detects two adjacent spaces in a string. -/
def has_consecutive_spaces : PyStr → Bool
  | ' ' :: ' ' :: _ => true
  | _ :: rest => has_consecutive_spaces rest
  | [] => false

/-! ## Helper lemmas -/

theorem is_sub_run_refl (s : PyStr) : is_sub_run s s := ⟨[], [], by simp⟩

theorem is_sub_run_take (l : PyStr) (n : Nat) : is_sub_run (l.take n) l :=
  ⟨[], l.drop n, by simp⟩

theorem is_sub_run_drop (l : PyStr) (n : Nat) : is_sub_run (l.drop n) l :=
  ⟨l.take n, [], by simp⟩

theorem is_sub_run_trans {a b c : PyStr} (h₁ : is_sub_run a b)
    (h₂ : is_sub_run b c) : is_sub_run a c := by
  obtain ⟨u, v, rfl⟩ := h₁
  obtain ⟨p, q, rfl⟩ := h₂
  exact ⟨p ++ u, v ++ q, by simp⟩

theorem dropWhile_is_sub_run (p : Char → Bool) (l : PyStr) :
    is_sub_run (l.dropWhile p) l :=
  ⟨l.takeWhile p, [], by simp [List.takeWhile_append_dropWhile]⟩

theorem pyStrip_is_sub_run (s : PyStr) : is_sub_run (pyStrip s) s := by
  have h₁ : is_sub_run (pyStrip s) (s.dropWhile isPySpace) := by
    refine ⟨[], ((s.dropWhile isPySpace).reverse.takeWhile isPySpace).reverse, ?_⟩
    conv_lhs => rw [← List.reverse_reverse (s.dropWhile isPySpace),
      ← List.takeWhile_append_dropWhile (p := isPySpace)
        (l := (s.dropWhile isPySpace).reverse)]
    simp only [pyStrip, List.reverse_append, List.nil_append]
  exact is_sub_run_trans h₁ (dropWhile_is_sub_run _ _)

/-- Every segment emitted by the fallback loop is a nonempty contiguous
run of the input, and the remainder is a contiguous run of the input. -/
theorem hard_break_spec (chars_per_line : Nat) (current : PyStr) :
    (∀ seg ∈ (hard_break chars_per_line current).1,
        seg ≠ [] ∧ is_sub_run seg current)
      ∧ is_sub_run (hard_break chars_per_line current).2 current := by
  induction current using hard_break.induct chars_per_line with
  | case1 x h0 =>
    rw [hard_break]
    simp only [dif_pos h0]
    simp [is_sub_run_refl]
  | case2 x h0 hlen i hfind hi ih =>
    rw [hard_break]
    simp only [dif_neg h0, dif_pos hlen, hfind, dif_pos hi]
    constructor
    · intro seg hseg
      rcases List.mem_cons.mp hseg with h | h
      · subst h
        refine ⟨?_, is_sub_run_take x i⟩
        intro hnil
        have hlen2 := congrArg List.length hnil
        rw [List.length_take] at hlen2
        simp only [List.length_nil] at hlen2
        omega
      · obtain ⟨h1, h2⟩ := ih.1 seg h
        exact ⟨h1, is_sub_run_trans h2
          (is_sub_run_trans (pyStrip_is_sub_run _) (is_sub_run_drop x i))⟩
    · exact is_sub_run_trans ih.2
        (is_sub_run_trans (pyStrip_is_sub_run _) (is_sub_run_drop x i))
  | case3 x h0 hlen i hfind hi ih =>
    rw [hard_break]
    simp only [dif_neg h0, dif_pos hlen, hfind, dif_neg hi]
    constructor
    · intro seg hseg
      rcases List.mem_cons.mp hseg with h | h
      · subst h
        refine ⟨?_, is_sub_run_take x chars_per_line⟩
        intro hnil
        have hlen2 := congrArg List.length hnil
        rw [List.length_take] at hlen2
        simp only [List.length_nil] at hlen2
        omega
      · obtain ⟨h1, h2⟩ := ih.1 seg h
        exact ⟨h1, is_sub_run_trans h2 (is_sub_run_drop x chars_per_line)⟩
    · exact is_sub_run_trans ih.2 (is_sub_run_drop x chars_per_line)
  | case4 x h0 hlen hfind ih =>
    rw [hard_break]
    simp only [dif_neg h0, dif_pos hlen, hfind]
    constructor
    · intro seg hseg
      rcases List.mem_cons.mp hseg with h | h
      · subst h
        refine ⟨?_, is_sub_run_take x chars_per_line⟩
        intro hnil
        have hlen2 := congrArg List.length hnil
        rw [List.length_take] at hlen2
        simp only [List.length_nil] at hlen2
        omega
      · obtain ⟨h1, h2⟩ := ih.1 seg h
        exact ⟨h1, is_sub_run_trans h2 (is_sub_run_drop x chars_per_line)⟩
    · exact is_sub_run_trans ih.2 (is_sub_run_drop x chars_per_line)
  | case5 x h0 hlen =>
    rw [hard_break]
    simp only [dif_neg h0, dif_neg hlen]
    simp [is_sub_run_refl]

/-- The word loop never appends an empty line: flushes are guarded by
`if current_line` and fallback segments are nonempty. -/
theorem wrap_words_ne_nil (font : PyFont) (max_width : Int) :
    ∀ (words : List PyStr) (current_line : PyStr),
      ∀ l ∈ (wrap_words font max_width words current_line).1, l ≠ [] := by
  intro words
  induction words with
  | nil =>
    intro current_line l hl
    simp [wrap_words] at hl
  | cons word words ih =>
    intro current_line l hl
    simp only [wrap_words] at hl
    split_ifs at hl
    all_goals first
    | exact ih _ _ hl
    | (simp only [List.nil_append, List.mem_append, List.mem_singleton] at hl
       rcases hl with (h | h) | h
       · subst h; assumption
       · exact ((hard_break_spec _ _).1 l h).1
       · exact ih _ _ h)
    | (simp only [List.nil_append, List.mem_append, List.mem_singleton] at hl
       rcases hl with h | h
       · exact ((hard_break_spec _ _).1 l h).1
       · exact ih _ _ h)
    | (simp only [List.nil_append, List.mem_append, List.mem_singleton] at hl
       rcases hl with h | h
       · subst h; assumption
       · exact ih _ _ h)

/-- Invariant of the word loop when every word is nonempty: every
emitted line either measures within `max_width` or is a nonempty
contiguous run of some word of `W₀` that itself exceeds `max_width`, and
the running `current_line` satisfies the same bound (or is empty). -/
theorem wrap_words_spec (font : PyFont) (max_width : Int) (W₀ : List PyStr) :
    ∀ (words : List PyStr) (current_line : PyStr),
      (∀ w ∈ words, w ∈ W₀) →
      (∀ w ∈ words, w ≠ []) →
      (current_line = [] ∨ text_width font current_line ≤ max_width
        ∨ ∃ w ∈ W₀, is_sub_run current_line w ∧ max_width < text_width font w) →
      (∀ l ∈ (wrap_words font max_width words current_line).1,
          text_width font l ≤ max_width
            ∨ (l ≠ [] ∧ ∃ w ∈ W₀, is_sub_run l w ∧ max_width < text_width font w))
        ∧ ((wrap_words font max_width words current_line).2 = []
            ∨ text_width font (wrap_words font max_width words current_line).2
                ≤ max_width
            ∨ ∃ w ∈ W₀, is_sub_run (wrap_words font max_width words current_line).2 w
                ∧ max_width < text_width font w) := by
  intro words
  induction words with
  | nil =>
    intro current_line _ _ hcur
    constructor
    · intro l hl; simp [wrap_words] at hl
    · simpa [wrap_words] using hcur
  | cons word words ih =>
    intro current_line hW hne hcur
    have hw0 : word ≠ [] := hne word (by simp)
    have hWw : word ∈ W₀ := hW word (by simp)
    have hW' : ∀ w ∈ words, w ∈ W₀ := fun w hw => hW w (List.mem_cons_of_mem _ hw)
    have hne' : ∀ w ∈ words, w ≠ [] := fun w hw => hne w (List.mem_cons_of_mem _ hw)
    have hflush : ∀ l ∈ (if current_line ≠ [] then [current_line]
        else ([] : List PyStr)),
        text_width font l ≤ max_width
          ∨ (l ≠ [] ∧ ∃ w ∈ W₀, is_sub_run l w ∧ max_width < text_width font w) := by
      intro l hl
      split_ifs at hl with hc
      · simp only [List.mem_singleton] at hl
        subst hl
        rcases hcur with h | h | h
        · exact absurd h hc
        · exact Or.inl h
        · exact Or.inr ⟨hc, h⟩
      · simp at hl
    by_cases hacc : text_width font (pyStrip (current_line ++ [' '] ++ word))
        ≤ max_width
    · have h := ih (pyStrip (current_line ++ [' '] ++ word)) hW' hne'
        (Or.inr (Or.inl hacc))
      simpa only [wrap_words, if_neg hw0, if_pos hacc] using h
    · by_cases hww : max_width < text_width font word
      · have hseg : ∀ (C : Nat), ∀ l ∈ (hard_break C word).1,
            text_width font l ≤ max_width
              ∨ (l ≠ [] ∧ ∃ w ∈ W₀, is_sub_run l w
                  ∧ max_width < text_width font w) := by
          intro C l hl
          obtain ⟨h1, h2⟩ := (hard_break_spec C word).1 l hl
          exact Or.inr ⟨h1, word, hWw, h2, hww⟩
        have hrec := fun (C : Nat) => ih ((hard_break C word).2) hW' hne'
          (Or.inr (Or.inr ⟨word, hWw, (hard_break_spec C word).2, hww⟩))
        constructor
        · intro l hl
          simp only [wrap_words, if_neg hw0, if_neg hacc, if_pos hww,
            List.mem_append, or_assoc] at hl
          rcases hl with h | h | h
          · exact hflush l h
          · exact hseg _ l h
          · exact (hrec _).1 l h
        · simp only [wrap_words, if_neg hw0, if_neg hacc, if_pos hww]
          exact (hrec _).2
      · have h := ih word hW' hne' (Or.inr (Or.inl (not_lt.mp hww)))
        constructor
        · intro l hl
          simp only [wrap_words, if_neg hw0, if_neg hacc, if_neg hww,
            List.mem_append, or_assoc] at hl
          rcases hl with h' | h'
          · exact hflush l h'
          · exact h.1 l h'
        · simpa only [wrap_words, if_neg hw0, if_neg hacc, if_neg hww] using h.2

/-- No line returned by `wrap_text` is empty. -/
theorem wrap_text_ne_nil (text : PyStr) (font : PyFont) (max_width : Int) :
    ∀ l ∈ wrap_text text font max_width, l ≠ [] := by
  have main : ∀ (ps : List PyStr) (acc : List PyStr), (∀ l ∈ acc, l ≠ []) →
      ∀ l ∈ ps.foldl (fun lines paragraph =>
          let words := paragraph.splitOn ' '
          if words = [] then lines ++ [[]]
          else
            let res := wrap_words font max_width words []
            lines ++ res.1 ++ (if res.2 ≠ [] then [res.2] else [])) acc,
        l ≠ [] := by
    intro ps
    induction ps with
    | nil => intro acc hacc; simpa using hacc
    | cons p ps ih =>
      intro acc hacc
      rw [List.foldl_cons]
      apply ih
      intro l hl
      simp only [] at hl
      rw [if_neg (by exact List.splitOnP_ne_nil _ p)] at hl
      simp only [List.mem_append, or_assoc] at hl
      rcases hl with h | h | h
      · exact hacc l h
      · exact wrap_words_ne_nil font max_width _ _ l h
      · split_ifs at h with hres
        · simp only [List.mem_singleton] at h
          subst h; exact hres
        · simp at h
  exact main (text.splitOn '\n') [] (by simp)

/-- Every emitted option box repeats an option of the input, and the
emitted boxes are an initial prefix of the options in order. -/
theorem draw_answer_options_initial (option_font : PyFont) :
    ∀ (options : List PyStr) (i : Nat) (current_y : Int),
      (draw_answer_options option_font options i current_y).1.map OptionBox.text
        = options.take (draw_answer_options option_font options i current_y).1.length := by
  intro options
  induction options with
  | nil => intro i y; simp [draw_answer_options]
  | cons o rest ih =>
    intro i y
    rw [draw_answer_options]
    simp only []
    split_ifs with hov
    · simp
    · simp only [List.map_cons, List.length_cons, List.take_succ_cons]
      rw [ih]

/-- The loop emits at most as many boxes as there are options. -/
theorem draw_answer_options_le_length (option_font : PyFont) :
    ∀ (options : List PyStr) (i : Nat) (current_y : Int),
      (draw_answer_options option_font options i current_y).1.length
        ≤ options.length := by
  intro options
  induction options with
  | nil => intro i y; simp [draw_answer_options]
  | cons o rest ih =>
    intro i y
    rw [draw_answer_options]
    simp only []
    split_ifs with hov
    · simp
    · simp only [List.length_cons]
      exact Nat.succ_le_succ (ih _ _)

/-- If every option was emitted, the cursor plus the cumulative box
height fits above `VIDEO_HEIGHT - BOTTOM_MARGIN` (inter-box spacing is
nonnegative and only adds to the last accepted bottom). -/
theorem draw_answer_options_complete (option_font : PyFont) :
    ∀ (options : List PyStr) (i : Nat) (current_y : Int),
      options ≠ [] →
      (draw_answer_options option_font options i current_y).1.length
        = options.length →
      current_y + (options.map (option_box_height option_font)).sum
        ≤ VIDEO_HEIGHT - BOTTOM_MARGIN := by
  intro options
  induction options with
  | nil => intro i y h; exact absurd rfl h
  | cons o rest ih =>
    intro i y _ hlen
    rw [draw_answer_options] at hlen
    simp only [] at hlen
    split_ifs at hlen with hov
    · simp at hlen
    · push_neg at hov
      simp only [List.length_cons, Nat.succ.injEq] at hlen
      rcases eq_or_ne rest [] with hrest | hrest
      · subst hrest
        simp only [List.map_cons, List.map_nil, List.sum_cons, List.sum_nil,
          add_zero]
        have hbh : option_box_height option_font o
            = option_content_height option_font
                (wrap_text o option_font option_wrap_width)
              + 2 * option_box_internal_padding_y := rfl
        rw [hbh]
        omega
      · have h2 := ih (i + 1)
          (y + (option_content_height option_font
              (wrap_text o option_font option_wrap_width)
            + 2 * option_box_internal_padding_y) + option_inter_box_spacing)
          hrest hlen
        simp only [List.map_cons, List.sum_cons]
        have hbh : option_box_height option_font o
            = option_content_height option_font
                (wrap_text o option_font option_wrap_width)
              + 2 * option_box_internal_padding_y := rfl
        rw [hbh]
        have hsp : (0 : Int) ≤ option_inter_box_spacing := by decide
        omega

/-- Closed form of the scan accumulator loop: first separator match,
else last letter-prefix match, else the initial accumulator. -/
theorem find_correct_option_loop_spec (letter : PyStr) :
    ∀ (options : List PyStr) (acc : PyStr),
      find_correct_option_loop letter options acc
        = match options.find? (fun opt => answer_sep_match letter (pyStrip opt)) with
          | some opt => pyStrip opt
          | none =>
            match (options.filter
                (fun opt => letter.isPrefixOf (pyUpper (pyStrip opt)))).getLast? with
            | some opt => pyStrip opt
            | none => acc := by
  intro options
  induction options with
  | nil => intro acc; simp [find_correct_option_loop]
  | cons opt rest ih =>
    intro acc
    by_cases h1 : answer_sep_match letter (pyStrip opt) = true
    · rw [find_correct_option_loop]
      rw [@List.find?_cons_of_pos PyStr
        (fun o => answer_sep_match letter (pyStrip o)) opt rest h1]
      simp only [if_pos h1]
    · rw [find_correct_option_loop]
      rw [@List.find?_cons_of_neg PyStr
        (fun o => answer_sep_match letter (pyStrip o)) opt rest h1]
      simp only [if_neg h1]
      by_cases h2 : letter.isPrefixOf (pyUpper (pyStrip opt)) = true
      · rw [if_pos h2, ih, @List.filter_cons_of_pos PyStr
          (fun o => letter.isPrefixOf (pyUpper (pyStrip o))) opt rest h2]
        cases hf : List.find? (fun o => answer_sep_match letter (pyStrip o)) rest with
        | some o => simp
        | none =>
          simp only []
          cases hg : (rest.filter
              (fun o => letter.isPrefixOf (pyUpper (pyStrip o)))).getLast? with
          | some o =>
            cases hfe : rest.filter
                (fun o => letter.isPrefixOf (pyUpper (pyStrip o))) with
            | nil => rw [hfe] at hg; simp at hg
            | cons b l =>
              rw [hfe] at hg
              rw [List.getLast?_cons_cons, hg]
          | none =>
            cases hfe : rest.filter
                (fun o => letter.isPrefixOf (pyUpper (pyStrip o))) with
            | nil => simp
            | cons b l => rw [hfe] at hg; simp at hg
      · rw [if_neg h2, ih, @List.filter_cons_of_neg PyStr
          (fun o => letter.isPrefixOf (pyUpper (pyStrip o))) opt rest h2]

/-! ## Claim theorems -/

/-- Claim C1 (amended).  When every space-split token of every paragraph
is nonempty (no run of consecutive spaces and no leading or trailing
space in a paragraph), every line returned by `wrap_text` either has
measured width at most `max_width`, or is a nonempty contiguous run of a
single word whose own measured width exceeds `max_width` — a segment or
remainder of the unbreakable-token character fallback.  The original
claim, quantified over all texts, is refuted by
`wrap_width_counterexample`: spaces appended for empty tokens are never
re-measured, so a line can exceed `max_width` with no unbreakable token
present. -/
theorem wrap_lines_width (text : PyStr) (font : PyFont) (max_width : Int)
    (hmax : 0 < max_width)
    (htok : ∀ p ∈ text.splitOn '\n', ∀ w ∈ p.splitOn ' ', w ≠ []) :
    ∀ l ∈ wrap_text text font max_width,
      text_width font l ≤ max_width
        ∨ (l ≠ [] ∧ ∃ p ∈ text.splitOn '\n', ∃ w ∈ p.splitOn ' ',
            is_sub_run l w ∧ max_width < text_width font w) := by
  have main : ∀ (ps : List PyStr) (acc : List PyStr),
      (∀ p ∈ ps, p ∈ text.splitOn '\n') →
      (∀ l ∈ acc,
        text_width font l ≤ max_width
          ∨ (l ≠ [] ∧ ∃ p ∈ text.splitOn '\n', ∃ w ∈ p.splitOn ' ',
              is_sub_run l w ∧ max_width < text_width font w)) →
      ∀ l ∈ ps.foldl (fun lines paragraph =>
          let words := paragraph.splitOn ' '
          if words = [] then lines ++ [[]]
          else
            let res := wrap_words font max_width words []
            lines ++ res.1 ++ (if res.2 ≠ [] then [res.2] else [])) acc,
        text_width font l ≤ max_width
          ∨ (l ≠ [] ∧ ∃ p ∈ text.splitOn '\n', ∃ w ∈ p.splitOn ' ',
              is_sub_run l w ∧ max_width < text_width font w) := by
    intro ps
    induction ps with
    | nil => intro acc _ hacc; simpa using hacc
    | cons p ps ih =>
      intro acc hps hacc
      have hp : p ∈ text.splitOn '\n' := hps p (by simp)
      have hps' : ∀ q ∈ ps, q ∈ text.splitOn '\n' :=
        fun q hq => hps q (List.mem_cons_of_mem _ hq)
      rw [List.foldl_cons]
      apply ih _ hps'
      intro l hl
      simp only [] at hl
      rw [if_neg (by exact List.splitOnP_ne_nil _ p)] at hl
      have hspec := wrap_words_spec font max_width (p.splitOn ' ')
        (p.splitOn ' ') [] (fun w hw => hw) (htok p hp) (Or.inl rfl)
      simp only [List.mem_append, or_assoc] at hl
      rcases hl with h | h | h
      · exact hacc l h
      · rcases hspec.1 l h with h' | ⟨hlne, w, hw, hsub, hgt⟩
        · exact Or.inl h'
        · exact Or.inr ⟨hlne, p, hp, w, hw, hsub, hgt⟩
      · split_ifs at h with hres
        · simp only [List.mem_singleton] at h
          subst h
          rcases hspec.2 with h' | h' | ⟨w, hw, hsub, hgt⟩
          · exact absurd h' hres
          · exact Or.inl h'
          · exact Or.inr ⟨hres, p, hp, w, hw, hsub, hgt⟩
        · simp at h
  exact main (text.splitOn '\n') [] (fun p hp => hp) (by simp)

/-- Claim C1 counterexample.  With every character 10 px wide and
`max_width = 15`, no space-split token of `"a   "` measures above 15 —
so the unbreakable-token fallback is never involved — yet the single
emitted line measures 40 > 15: the claim's width invariant fails on a
line that is not a fallback segment. -/
theorem wrap_width_counterexample :
    (∀ p ∈ ("a   ".toList).splitOn '\n', ∀ w ∈ p.splitOn ' ',
        text_width ten_px_font w ≤ 15)
    ∧ wrap_text ("a   ".toList) ten_px_font 15 = [['a', ' ', ' ', ' ']]
    ∧ ¬ text_width ten_px_font ['a', ' ', ' ', ' '] ≤ 15 := by decide

/-- Witness for `wrap_lines_width` at the concrete example text, the
10 px font and `max_width = 109`. -/
theorem wrap_lines_width_witness :
    (0 : Int) < 109
    ∧ (∀ p ∈ ("the quick brown fox jumps".toList).splitOn '\n',
        ∀ w ∈ p.splitOn ' ', w ≠ [])
    ∧ ∀ l ∈ wrap_text ("the quick brown fox jumps".toList) ten_px_font 109,
        text_width ten_px_font l ≤ 109
          ∨ (l ≠ [] ∧ ∃ p ∈ ("the quick brown fox jumps".toList).splitOn '\n',
              ∃ w ∈ p.splitOn ' ',
                is_sub_run l w ∧ 109 < text_width ten_px_font w) :=
  ⟨by decide, by decide,
    wrap_lines_width ("the quick brown fox jumps".toList) ten_px_font 109
      (by decide) (by decide)⟩

/-- Claim C2.  The option loop checks overflow before emitting: the
emitted boxes carry exactly an initial prefix of the options in their
original order (so the omitted options are exactly the trailing ones,
and no partial box exists), and whenever the four options' cumulative
box height exceeds the space between the cursor and
`VIDEO_HEIGHT - BOTTOM_MARGIN`, strictly fewer than 4 boxes are
emitted. -/
theorem option_overflow_policy (option_font : PyFont) (options : List PyStr)
    (current_y : Int) :
    ((draw_answer_options option_font options 0 current_y).1.map OptionBox.text
        = options.take (draw_answer_options option_font options 0 current_y).1.length)
    ∧ (options.length = 4 →
        VIDEO_HEIGHT - BOTTOM_MARGIN
            < current_y + (options.map (option_box_height option_font)).sum →
        (draw_answer_options option_font options 0 current_y).1.length < 4) := by
  refine ⟨draw_answer_options_initial option_font options 0 current_y, ?_⟩
  intro h4 hover
  by_contra hge
  push_neg at hge
  have hle := draw_answer_options_le_length option_font options 0 current_y
  have heq : (draw_answer_options option_font options 0 current_y).1.length
      = options.length := by omega
  have hne : options ≠ [] := by
    intro h; rw [h] at h4; simp at h4
  have hcomp := draw_answer_options_complete option_font options 0 current_y hne heq
  omega

/-- Witness for `option_overflow_policy`: four short options under a
600 px tall font starting at cursor 100 overflow, and fewer than 4 boxes
are emitted. -/
theorem option_overflow_policy_witness :
    (["A) 1".toList, "B) 2".toList, "C) 3".toList, "D) 4".toList]
        : List PyStr).length = 4
    ∧ VIDEO_HEIGHT - BOTTOM_MARGIN
        < 100 + (["A) 1".toList, "B) 2".toList, "C) 3".toList, "D) 4".toList].map
            (option_box_height tall_font)).sum
    ∧ (draw_answer_options tall_font
        ["A) 1".toList, "B) 2".toList, "C) 3".toList, "D) 4".toList]
        0 100).1.length < 4 :=
  ⟨by decide, by decide,
    (option_overflow_policy tall_font
        ["A) 1".toList, "B) 2".toList, "C) 3".toList, "D) 4".toList] 100).2
      (by decide) (by decide)⟩

/-- Claim C3.  The lexical classification is a pure function with fixed
priority comment > keyword > string > default: the four example lines
classify as stated, a line whose stripped form starts with a hash is a
comment regardless of content, and each later category applies only when
the earlier tests fail. -/
theorem classify_priority_and_examples :
    classify_code_line ("# if x:".toList) = CodeColor.comment
    ∧ classify_code_line ("if x > 0:".toList) = CodeColor.keyword
    ∧ classify_code_line
        ['p', 'r', 'i', 'n', 't', '(', '\'', 'h', 'i', '\'', ')']
        = CodeColor.stringLit
    ∧ classify_code_line ("x = 1".toList) = CodeColor.default
    ∧ (∀ line : PyStr, (pyStrip line).take 1 = ['#'] →
        classify_code_line line = CodeColor.comment)
    ∧ (∀ line : PyStr, (pyStrip line).take 1 ≠ ['#'] →
        keyword_line_match line = true →
        classify_code_line line = CodeColor.keyword)
    ∧ (∀ line : PyStr, (pyStrip line).take 1 ≠ ['#'] →
        keyword_line_match line = false → has_quote_char line = true →
        classify_code_line line = CodeColor.stringLit)
    ∧ (∀ line : PyStr, (pyStrip line).take 1 ≠ ['#'] →
        keyword_line_match line = false → has_quote_char line = false →
        classify_code_line line = CodeColor.default) := by
  refine ⟨by decide, by decide, by decide, by decide, ?_, ?_, ?_, ?_⟩
  · intro line h; simp [classify_code_line, h]
  · intro line h1 h2; simp [classify_code_line, h1, h2]
  · intro line h1 h2 h3; simp [classify_code_line, h1, h2, h3]
  · intro line h1 h2 h3; simp [classify_code_line, h1, h2, h3]

/-- Witness for `classify_priority_and_examples`: each of the four
priority implications applied at a fresh concrete line. -/
theorem classify_priority_witness :
    ((pyStrip ("# return".toList)).take 1 = ['#']
      ∧ classify_code_line ("# return".toList) = CodeColor.comment)
    ∧ ((pyStrip ("  del x".toList)).take 1 ≠ ['#']
      ∧ keyword_line_match ("  del x".toList) = true
      ∧ classify_code_line ("  del x".toList) = CodeColor.keyword)
    ∧ ((pyStrip ("y = \"z\"".toList)).take 1 ≠ ['#']
      ∧ keyword_line_match ("y = \"z\"".toList) = false
      ∧ has_quote_char ("y = \"z\"".toList) = true
      ∧ classify_code_line ("y = \"z\"".toList) = CodeColor.stringLit)
    ∧ ((pyStrip ("z = 2".toList)).take 1 ≠ ['#']
      ∧ keyword_line_match ("z = 2".toList) = false
      ∧ has_quote_char ("z = 2".toList) = false
      ∧ classify_code_line ("z = 2".toList) = CodeColor.default) :=
  ⟨⟨by decide, classify_priority_and_examples.2.2.2.2.1 _ (by decide)⟩,
   ⟨by decide, by decide,
     classify_priority_and_examples.2.2.2.2.2.1 _ (by decide) (by decide)⟩,
   ⟨by decide, by decide, by decide,
     classify_priority_and_examples.2.2.2.2.2.2.1 _ (by decide) (by decide)
       (by decide)⟩,
   ⟨by decide, by decide, by decide,
     classify_priority_and_examples.2.2.2.2.2.2.2 _ (by decide) (by decide)
       (by decide)⟩⟩

/-- Claim C4 (code bug).  Evaluating `wrap_text` at `"a\n\nb"`: the
input splits into three paragraphs, but the middle empty paragraph
contributes no output line at all (the output is exactly `["a", "b"]`,
containing no empty line), because Python's `''.split(' ')` is `['']`,
never `[]`, so the source's `if not words: lines.append('')` branch —
whose own comment reads "Preserve empty lines" — is unreachable. -/
theorem wrap_empty_paragraph_eval :
    (("a\n\nb".toList).splitOn '\n').length = 3
    ∧ wrap_text ("a\n\nb".toList) ten_px_font 1000 = [['a'], ['b']]
    ∧ [] ∉ wrap_text ("a\n\nb".toList) ten_px_font 1000 := by decide

/-- Claim C5 counterexample.  Wrapping `"a  b"` (two interior spaces)
with ample width emits the line `"a  b"` still containing two
consecutive spaces: runs of spaces are preserved, not collapsed to a
single separating space. -/
theorem wrap_collapse_counterexample :
    wrap_text ("a  b".toList) ten_px_font 1000 = [['a', ' ', ' ', 'b']]
    ∧ (wrap_text ("a  b".toList) ten_px_font 1000).any has_consecutive_spaces
        = true
    ∧ ['a', ' ', ' ', 'b'] ≠ ("a b".toList) := by decide

/-- Claim C5 (amended).  Empty tokens produced by splitting on single
spaces are never emitted as their own output line — no line returned by
`wrap_text` is empty — but runs of consecutive spaces are reproduced
inside the line rather than collapsed: each empty token appends one
unmeasured space to a non-empty current line, as the concrete
double-space input shows. -/
theorem wrap_empty_tokens_not_emitted (text : PyStr) (font : PyFont)
    (max_width : Int) :
    [] ∉ wrap_text text font max_width
    ∧ wrap_text ("a  b".toList) ten_px_font 1000 = [['a', ' ', ' ', 'b']] := by
  constructor
  · intro h
    exact wrap_text_ne_nil text font max_width [] h rfl
  · decide

/-- Claim C6 (amended).  The answer-overlay text equals the reference
description: the first option whose stripped text begins with the letter
followed by a recognized separator; otherwise — the amendment forced by
the code's `elif` — the last option whose stripped uppercase form merely
starts with the letter; only when neither exists is the placeholder
`"(<letter>)"` used.  The original claim's direct fallback to the
placeholder is refuted by `answer_scan_counterexample`. -/
theorem answer_overlay_characterization (letter : PyStr) (options : List PyStr) :
    find_correct_option_text letter options = answer_overlay_spec letter options :=
  find_correct_option_loop_spec letter options ('(' :: letter ++ [')'])

/-- Claim C6 counterexample.  With correct letter `A` and options
`["Apple"]`, no option matches letter-plus-separator, yet the scan
returns `"Apple"`, not the placeholder `"(A)"` the claim requires. -/
theorem answer_scan_counterexample :
    (∀ opt ∈ [("Apple".toList)],
        answer_sep_match ("A".toList) (pyStrip opt) = false)
    ∧ find_correct_option_text ("A".toList) [("Apple".toList)]
        ≠ ['(', 'A', ')'] := by decide

/-- Claim C7.  Wrapping `"the quick brown fox jumps"` under the metric
where every character (spaces included) is 10 px wide, with
`max_width = 109`, yields exactly the three greedy lines. -/
theorem wrap_example_scenario :
    wrap_text ("the quick brown fox jumps".toList) ten_px_font 109
      = ["the quick".toList, "brown fox".toList, "jumps".toList] := by decide

/-- Claim C8.  The layout computation is deterministic: it is a pure
function of the question record and the font set (canvas size and
configuration are the fixed constants of the embedding), so two runs on
equal inputs produce equal plans — equal element count, order, positions
and line breaks. -/
theorem compute_layout_deterministic (q₁ q₂ : QuestionData) (f₁ f₂ : FontSet)
    (hq : q₁ = q₂) (hf : f₁ = f₂) :
    create_text_image q₁ f₁ = create_text_image q₂ f₂ := by
  subst hq; subst hf; rfl

/-- Witness for `compute_layout_deterministic` at the sample question
and the 10 px font set. -/
theorem compute_layout_deterministic_witness :
    sample_question = sample_question ∧ sample_fonts = sample_fonts
    ∧ create_text_image sample_question sample_fonts
        = create_text_image sample_question sample_fonts :=
  ⟨rfl, rfl, compute_layout_deterministic sample_question sample_question
    sample_fonts sample_fonts rfl rfl⟩

/-- Claim C9.  Text measurement never aborts layout: `get_text_size` is
a total function (every branch of the source returns a pair), and in
both backend-failure branches — `getbbox` raising, or `getsize` raising
when `getbbox` is absent — it substitutes the heuristic
`width = len(text) * (fallback_height // 2)` with the fixed fallback
height `font.size` (20 when absent). -/
theorem measurement_never_fails (font : PyFont) (text : PyStr) :
    (∀ getbbox, font.getbbox? = some getbbox → getbbox text = none →
        get_text_size font text
          = ((text.length : Int)
              * Int.fdiv (match font.size? with
                  | some n => (n : Int) | none => 20) 2,
             (match font.size? with | some n => (n : Int) | none => 20)))
    ∧ (∀ getsize, font.getbbox? = none → font.getsize? = some getsize →
        getsize text = none →
        get_text_size font text
          = ((text.length : Int)
              * Int.fdiv (match font.size? with
                  | some n => (n : Int) | none => 20) 2,
             (match font.size? with | some n => (n : Int) | none => 20))) := by
  constructor
  · intro getbbox hb hr
    simp [get_text_size, hb, hr, fallback_text_size]
  · intro getsize hb hs hr
    simp [get_text_size, hb, hs, hr, fallback_text_size]

/-- Witness for `measurement_never_fails`: under the raising font with
`size = 30`, measuring `"abc"` yields `(3 * 15, 30) = (45, 30)`. -/
theorem measurement_never_fails_witness :
    raising_font.getbbox? = some (fun _ => none)
    ∧ get_text_size raising_font ("abc".toList) = (45, 30) := by
  refine ⟨rfl, ?_⟩
  have h := (measurement_never_fails raising_font ("abc".toList)).1
    (fun _ => none) rfl rfl
  rw [h]
  decide

/-- Claim C10.  A present-but-empty options sequence makes
`create_text_image` return `none` rather than an image with prompt,
question and code block only: the option loop never runs, its loop
variable stays unbound, and the post-loop adjustment of line 611 raises
`NameError`, caught by the catch-all handler which returns `None`. -/
theorem empty_options_returns_none (q c a : Option PyStr) (fonts : FontSet) :
    create_text_image ⟨q, c, some [], a⟩ fonts = none := rfl
